import Mathlib

/-!
Shallow embedding of `pomodoro_app.py` (eroinne/Pomodoro-technique).

The program is a Tkinter Pomodoro timer.  The embedding covers the state the
spec calls TimerState (the fields of `PomodoroApp` that the timer operations
read and write: `timer_running`, `timer_paused`, `remaining_time`,
`current_phase`, `completed_cycles`, `current_technique`) and the Technique
Store (`load_techniques` / `save_techniques`).  Widget configuration calls
(`self.start_button.config`, `self.phase_var.set`, ...) only mirror this state
into the GUI and are not part of the model; `update_display` is modelled by
`displayedSeconds` because the spec talks about the displayed time.  Python
integers are modelled as `Int`; Python phase strings ("work", "break",
"long_break", "ready") are modelled as `String` values, as in the source.
-/

set_option autoImplicit false

namespace Pomodoro

/-- The `TimerTechnique` dataclass (lines 12-19): name, work/break minutes,
long-break minutes (default 15), cycles before long break (default 4),
description (default empty). -/
structure TimerTechnique where
  name : String
  work_time : Int
  break_time : Int
  long_break_time : Int := 15
  cycles_before_long_break : Int := 4
  description : String := ""
deriving DecidableEq, Repr

/-- The §3 data-model bounds the spec puts on a Technique: all durations and
the cycle cadence are at least 1 (the GUI spinboxes have `from_=1`). -/
def ValidTechnique (t : TimerTechnique) : Prop :=
  1 ≤ t.work_time ∧ 1 ≤ t.break_time ∧ 1 ≤ t.long_break_time ∧
    1 ≤ t.cycles_before_long_break

instance (t : TimerTechnique) : Decidable (ValidTechnique t) := by
  unfold ValidTechnique; infer_instance

/-- The timer-relevant fields of `PomodoroApp` (lines 33-42). -/
structure AppState where
  timer_running : Bool
  timer_paused : Bool
  remaining_time : Int
  current_phase : String
  completed_cycles : Int
  current_technique : TimerTechnique
deriving DecidableEq, Repr

/-- `PomodoroApp.__init__` (lines 33-42): not running, not paused,
`remaining_time = 0`, phase "work", zero completed cycles; the current
technique is the first loaded technique, here a parameter. -/
def initState (t : TimerTechnique) : AppState :=
  { timer_running := false
    timer_paused := false
    remaining_time := 0
    current_phase := "work"
    completed_cycles := 0
    current_technique := t }

/-- `PomodoroApp.start_timer` (lines 617-643).  If running and paused, resume
(clear the paused flag).  Otherwise ("start new timer" branch) set running,
clear paused, set phase "work", set `remaining_time` to the work minutes times
60, and spawn the timer thread.  There is no separate branch for the
running-and-not-paused case: it also takes the else branch. -/
def start_timer (s : AppState) : AppState :=
  if s.timer_running && s.timer_paused then
    { s with timer_paused := false }
  else
    { s with
      timer_running := true
      timer_paused := false
      current_phase := "work"
      remaining_time := s.current_technique.work_time * 60 }

/-- `PomodoroApp.pause_timer` (lines 645-654).  If running and not paused, set
the paused flag; otherwise clear it. -/
def pause_timer (s : AppState) : AppState :=
  if s.timer_running && !s.timer_paused then
    { s with timer_paused := true }
  else
    { s with timer_paused := false }

/-- `PomodoroApp.reset_timer` (lines 656-671): stop running, clear paused,
phase "ready", zero completed cycles.  `remaining_time` is not written. -/
def reset_timer (s : AppState) : AppState :=
  { s with
    timer_running := false
    timer_paused := false
    current_phase := "ready"
    completed_cycles := 0 }

/-- `PomodoroApp.handle_timer_complete` (lines 693-724).  After a "work"
phase, increment `completed_cycles`; a long break starts when the new count is
divisible by `cycles_before_long_break`, otherwise a regular break.  After any
other phase, go back to "work".  In each case `remaining_time` is set to the
new phase's minutes times 60. -/
def handle_timer_complete (s : AppState) : AppState :=
  if s.current_phase = "work" then
    if (s.completed_cycles + 1) % s.current_technique.cycles_before_long_break = 0 then
      { s with
        completed_cycles := s.completed_cycles + 1
        current_phase := "long_break"
        remaining_time := s.current_technique.long_break_time * 60 }
    else
      { s with
        completed_cycles := s.completed_cycles + 1
        current_phase := "break"
        remaining_time := s.current_technique.break_time * 60 }
  else
    { s with
      current_phase := "work"
      remaining_time := s.current_technique.work_time * 60 }

/-- One iteration of the `while` body of `PomodoroApp.run_timer`
(lines 675-687): when running with time left and not paused, decrement
`remaining_time` by 1; a paused iteration only sleeps. -/
def tickOnce (s : AppState) : AppState :=
  if s.timer_running && s.remaining_time > 0 && !s.timer_paused then
    { s with remaining_time := s.remaining_time - 1 }
  else s

/-- The `while` loop of `PomodoroApp.run_timer` (lines 675-687), indexed by
the number of loop iterations examined (the Python loop is unbounded; `fuel`
iterations model a finite prefix of its execution).  Each iteration with
`timer_running` and `remaining_time > 0` either decrements the time (not
paused) or leaves the state unchanged (paused); the loop exits as soon as the
guard fails. -/
def run_timer_loop : Nat → AppState → AppState
  | 0, s => s
  | fuel + 1, s =>
    if s.timer_running && s.remaining_time > 0 then
      if s.timer_paused then
        run_timer_loop fuel s
      else
        run_timer_loop fuel { s with remaining_time := s.remaining_time - 1 }
    else s

/-- One execution of the `run_timer` thread body (lines 673-691): run the
loop; when the loop has exited (guard false) and the timer is still running,
`handle_timer_complete` fires.  The second component counts how many times the
phase-complete handler fired during this execution (0 or 1).  When `fuel`
iterations do not reach the loop exit (possible only while paused), the
execution is still inside the loop and no handler has fired. -/
def run_timer (fuel : Nat) (s : AppState) : AppState × Nat :=
  let s2 := run_timer_loop fuel s
  if s2.timer_running && s2.remaining_time > 0 then (s2, 0)
  else if s2.timer_running then (handle_timer_complete s2, 1)
  else (s2, 0)

/-- `PomodoroApp.on_technique_changed` (lines 290-302) as it acts on the timer
state: the selected technique becomes `current_technique`; no timer field
changes. -/
def on_technique_changed (s : AppState) (t : TimerTechnique) : AppState :=
  { s with current_technique := t }

/-- `PomodoroApp.apply_settings` (lines 310-325) as it acts on the timer
state: the work and break spinbox values overwrite the current technique's
`work_time` and `break_time`. -/
def apply_settings (s : AppState) (w b : Int) : AppState :=
  { s with current_technique :=
      { s.current_technique with work_time := w, break_time := b } }

/-- The displayed time in seconds, from `PomodoroApp.update_display`
(lines 594-615): while running and not paused the display shows
`remaining_time`; otherwise it shows the current technique's work minutes
(as "MM:00", i.e. `work_time * 60` seconds). -/
def displayedSeconds (s : AppState) : Int :=
  if s.timer_running && !s.timer_paused then s.remaining_time
  else s.current_technique.work_time * 60

/-- States reachable through the application's operations, starting from
`__init__` with a valid technique.  `complete` is guarded by
`timer_running = true`, matching line 689 (`if self.timer_running`).
`select` requires a valid technique (techniques are edited through spinboxes
bounded below by 1); `settings` likewise models the `from_=1` spinboxes. -/
inductive Reachable : AppState → Prop
  | init (t : TimerTechnique) (ht : ValidTechnique t) : Reachable (initState t)
  | start {s : AppState} : Reachable s → Reachable (start_timer s)
  | pause {s : AppState} : Reachable s → Reachable (pause_timer s)
  | reset {s : AppState} : Reachable s → Reachable (reset_timer s)
  | tick {s : AppState} : Reachable s → Reachable (tickOnce s)
  | complete {s : AppState} : Reachable s → s.timer_running = true →
      Reachable (handle_timer_complete s)
  | select {s : AppState} (t : TimerTechnique) (ht : ValidTechnique t) :
      Reachable s → Reachable (on_technique_changed s t)
  | settings {s : AppState} (w b : Int) (hw : 1 ≤ w) (hb : 1 ≤ b) :
      Reachable s → Reachable (apply_settings s w b)

/-- One technique record as it sits in `techniques.json`: `name`,
`work_time` and `break_time` are accessed with `t_data[...]` (required);
`long_break_time`, `cycles_before_long_break` and `description` are accessed
with `t_data.get(...)` (optional), lines 62-69. -/
structure RawTechnique where
  name : String
  work_time : Int
  break_time : Int
  long_break_time : Option Int
  cycles_before_long_break : Option Int
  description : Option String
deriving DecidableEq, Repr

/-- Building a `TimerTechnique` from one parsed record (lines 62-69):
`t_data.get("long_break_time", 15)`, `t_data.get("cycles_before_long_break", 4)`,
`t_data.get("description", "")`. -/
def parseTechnique (r : RawTechnique) : TimerTechnique :=
  { name := r.name
    work_time := r.work_time
    break_time := r.break_time
    long_break_time := r.long_break_time.getD 15
    cycles_before_long_break := r.cycles_before_long_break.getD 4
    description := r.description.getD "" }

/-- The built-in default list (lines 75-94): Classic Pomodoro 25/5,
Long Focus 50/10, Short Burst 15/3; long-break and cadence fields take the
dataclass defaults 15 and 4. -/
def default_techniques : List TimerTechnique :=
  [ { name := "Classic Pomodoro"
      work_time := 25
      break_time := 5
      description := "The classic Pomodoro technique with 25-minute work sessions and 5-minute breaks." }
  , { name := "Long Focus"
      work_time := 50
      break_time := 10
      description := "Longer focus sessions with 50-minute work periods and 10-minute breaks." }
  , { name := "Short Burst"
      work_time := 15
      break_time := 3
      description := "Short bursts of intense focus with 15-minute work sessions and 3-minute breaks." } ]

/-- What `load_techniques` can observe about `techniques.json`: the file is
absent, or present but json.load / field access raises, or present and parsed
into a list of records. -/
inductive ConfigFile
  | absent
  | unparseable
  | parsed (records : List RawTechnique)
deriving DecidableEq, Repr

/-- `PomodoroApp.load_techniques` (lines 50-94).  File absent: return the
defaults.  File present but unreadable/unparseable: the `except` clause shows
an error dialog (`messagebox.showerror`) and control falls through to the
default list — nothing is raised to the caller.  File parsed: return the
converted records.  The second component records whether the error dialog was
shown. -/
def load_techniques : ConfigFile → List TimerTechnique × Bool
  | ConfigFile.absent => (default_techniques, false)
  | ConfigFile.unparseable => (default_techniques, true)
  | ConfigFile.parsed rs => (rs.map parseTechnique, false)

/-- Modelled from the spec: `load() -> OrderedList<Technique>` "on parse/read
failure, surfaces a `LoadError` to the caller (caller decides whether to fall
back to defaults)".  The spec's load propagates an error value on a
present-but-unparseable file instead of returning a list. -/
def load_spec : ConfigFile → Except String (List TimerTechnique)
  | ConfigFile.absent => Except.ok default_techniques
  | ConfigFile.unparseable => Except.error "LoadError"
  | ConfigFile.parsed rs => Except.ok (rs.map parseTechnique)

/-- Serialization done by `save_techniques` (lines 103-112): every field of
every technique is written out. -/
def serialize (ts : List TimerTechnique) : List RawTechnique :=
  ts.map fun t =>
    { name := t.name
      work_time := t.work_time
      break_time := t.break_time
      long_break_time := some t.long_break_time
      cycles_before_long_break := some t.cycles_before_long_break
      description := some t.description }

/-- Contents of `techniques.json` after a save: the full serialized list, or
a truncated/partial file (the file was opened with mode "w", which truncates,
but `json.dump` did not complete), or whatever was there before. -/
inductive FileContent
  | absent
  | full (records : List RawTechnique)
  | truncated
deriving DecidableEq, Repr

/-- Where a run of `save_techniques` can fail: nowhere, at
`makedirs`/`open` (before the file is truncated), or during `json.dump`
(after `open(config_file, "w")` has already truncated the file). -/
inductive SaveFailure
  | none
  | atOpen
  | atDump
deriving DecidableEq, Repr

/-- `PomodoroApp.save_techniques` (lines 96-118) as a file-state transformer:
`prior` is the file content before the call, the result is the content after,
paired with whether the error dialog was shown.  The write is
`open(config_file, "w")` followed by `json.dump` — truncate in place, no
temporary file and no atomic rename; exceptions are caught and reported via
`messagebox.showerror`. -/
def save_techniques : SaveFailure → FileContent → List TimerTechnique →
    FileContent × Bool
  | SaveFailure.none, _, ts => (FileContent.full (serialize ts), false)
  | SaveFailure.atOpen, prior, _ => (prior, true)
  | SaveFailure.atDump, _, _ => (FileContent.truncated, true)

/-- One technique row of the edit dialog (lines 354-420): the form values and
the `deleted` flag. -/
structure TechniqueFrame where
  technique : TimerTechnique
  deleted : Bool
deriving DecidableEq, Repr

/-- `technique_frames[idx]["deleted"] = True` (line 444). -/
def markDeleted : List TechniqueFrame → Nat → List TechniqueFrame
  | [], _ => []
  | f :: fs, 0 => { f with deleted := true } :: fs
  | f :: fs, n + 1 => f :: markDeleted fs n

/-- `PomodoroApp.delete_technique_frame` (lines 438-445): when at most one
frame is still undeleted, show an error and return with the list unchanged;
otherwise mark frame `idx` deleted.  The second component records whether the
deletion was rejected with the error dialog. -/
def delete_technique_frame (idx : Nat) (frames : List TechniqueFrame) :
    List TechniqueFrame × Bool :=
  if (frames.filter (fun f => !f.deleted)).length ≤ 1 then (frames, true)
  else (markDeleted frames idx, false)

/-- `PomodoroApp.save_technique_changes` (lines 447-469) as it produces the
new technique list: the undeleted frames' form values, in order. -/
def save_technique_changes (frames : List TechniqueFrame) : List TimerTechnique :=
  (frames.filter (fun f => !f.deleted)).map (fun f => f.technique)

/-! ### Helper lemmas -/

/-- Unfolding the loop one active (running, unpaused, time left) iteration. -/
theorem run_timer_loop_succ_active (fuel : Nat) (s : AppState)
    (hrun : s.timer_running = true) (hp : s.timer_paused = false)
    (hpos : 0 < s.remaining_time) :
    run_timer_loop (fuel + 1) s =
      run_timer_loop fuel { s with remaining_time := s.remaining_time - 1 } := by
  simp [run_timer_loop, hrun, hp, hpos]

/-- Unfolding the loop one paused iteration: nothing changes. -/
theorem run_timer_loop_succ_paused (fuel : Nat) (s : AppState)
    (hg : (s.timer_running && decide (s.remaining_time > 0)) = true)
    (hp : s.timer_paused = true) :
    run_timer_loop (fuel + 1) s = run_timer_loop fuel s := by
  simp only [run_timer_loop, hg, if_true, hp]

/-- When the guard is false the loop returns immediately. -/
theorem run_timer_loop_exit (fuel : Nat) (s : AppState)
    (hg : (s.timer_running && decide (s.remaining_time > 0)) = false) :
    run_timer_loop fuel s = s := by
  cases fuel with
  | zero => rfl
  | succ n => simp [run_timer_loop, hg]

/-- The loop body never writes `timer_running`, `timer_paused`,
`current_phase`, `completed_cycles` or `current_technique`. -/
theorem run_timer_loop_fields (fuel : Nat) (s : AppState) :
    (run_timer_loop fuel s).timer_running = s.timer_running ∧
    (run_timer_loop fuel s).timer_paused = s.timer_paused ∧
    (run_timer_loop fuel s).current_phase = s.current_phase ∧
    (run_timer_loop fuel s).completed_cycles = s.completed_cycles ∧
    (run_timer_loop fuel s).current_technique = s.current_technique := by
  induction fuel generalizing s with
  | zero => simp [run_timer_loop]
  | succ n ih =>
    simp only [run_timer_loop]
    split
    · split
      · exact ih s
      · simpa using ih { s with remaining_time := s.remaining_time - 1 }
    · simp

/-- Running, unpaused, with at least `n` seconds left: `n` loop iterations
remove exactly `n` seconds. -/
theorem run_timer_loop_decrements (n : Nat) (s : AppState)
    (hrun : s.timer_running = true) (hp : s.timer_paused = false)
    (hn : (n : Int) ≤ s.remaining_time) :
    (run_timer_loop n s).remaining_time = s.remaining_time - n := by
  induction n generalizing s with
  | zero => simp [run_timer_loop]
  | succ k ih =>
    have hpos : 0 < s.remaining_time := by push_cast at hn; omega
    rw [run_timer_loop_succ_active k s hrun hp hpos,
      ih _ (by simp [hrun]) (by simp [hp]) (by simp; push_cast at hn ⊢; omega)]
    simp
    ring

/-- While paused the loop changes nothing at all. -/
theorem run_timer_loop_stays_paused (n : Nat) (s : AppState)
    (hp : s.timer_paused = true) :
    run_timer_loop n s = s := by
  induction n with
  | zero => rfl
  | succ k ih =>
    by_cases hg : (s.timer_running && decide (s.remaining_time > 0)) = true
    · rw [run_timer_loop_succ_paused k s hg hp, ih]
    · exact run_timer_loop_exit _ s (by simpa using hg)

/-- Running, unpaused, with `0 ≤ remaining_time ≤ fuel`: the loop runs until
`remaining_time = 0` and stops there. -/
theorem run_timer_loop_drain (fuel : Nat) (s : AppState)
    (hrun : s.timer_running = true) (hp : s.timer_paused = false)
    (h0 : 0 ≤ s.remaining_time) (hfuel : s.remaining_time ≤ (fuel : Int)) :
    run_timer_loop fuel s = { s with remaining_time := 0 } := by
  induction fuel generalizing s with
  | zero =>
    have hz : s.remaining_time = 0 := by push_cast at hfuel; omega
    have he : ({ s with remaining_time := 0 } : AppState) = s := by
      cases s; simp_all
    rw [he]; rfl
  | succ k ih =>
    by_cases hpos : 0 < s.remaining_time
    · rw [run_timer_loop_succ_active k s hrun hp hpos,
        ih _ (by simp [hrun]) (by simp [hp]) (by simp; omega)
          (by simp; omega)]
    · have hz : s.remaining_time = 0 := by omega
      rw [run_timer_loop_exit _ s (by simp [hz])]
      cases s; simp_all

/-- Invariant of every reachable state: `remaining_time` is non-negative, a
stopped timer is unpaused with zero completed cycles, the completed-cycle
count is non-negative, and the current technique satisfies the §3 bounds. -/
theorem reachable_inv {s : AppState} (h : Reachable s) :
    0 ≤ s.remaining_time ∧
    (s.timer_running = false → s.timer_paused = false ∧ s.completed_cycles = 0) ∧
    0 ≤ s.completed_cycles ∧
    ValidTechnique s.current_technique := by
  induction h with
  | init t ht => simpa [initState] using ht
  | start h ih =>
    obtain ⟨h0, hstop, hcc, hv⟩ := ih
    have hw := hv.1
    unfold start_timer
    split
    · next hc =>
      simp only [Bool.and_eq_true] at hc
      exact ⟨by simpa using h0, by simp_all, by simpa using hcc, by simpa using hv⟩
    · exact ⟨by simp; nlinarith, by simp, by simpa using hcc, by simpa using hv⟩
  | pause h ih =>
    obtain ⟨h0, hstop, hcc, hv⟩ := ih
    unfold pause_timer
    split
    · next hc =>
      simp only [Bool.and_eq_true] at hc
      exact ⟨by simpa using h0, by simp_all, by simpa using hcc, by simpa using hv⟩
    · exact ⟨by simpa using h0, by simp_all, by simpa using hcc, by simpa using hv⟩
  | reset h ih =>
    obtain ⟨h0, hstop, hcc, hv⟩ := ih
    exact ⟨by simpa [reset_timer] using h0, by simp [reset_timer],
      by simp [reset_timer], by simpa [reset_timer] using hv⟩
  | tick h ih =>
    obtain ⟨h0, hstop, hcc, hv⟩ := ih
    unfold tickOnce
    split
    · next hc =>
      simp only [Bool.and_eq_true, decide_eq_true_eq] at hc
      exact ⟨by simp; omega, by simp_all, by simpa using hcc, by simpa using hv⟩
    · exact ⟨h0, hstop, hcc, hv⟩
  | complete h hrun ih =>
    obtain ⟨h0, hstop, hcc, hv⟩ := ih
    have hl := hv.2.2.1
    have hb := hv.2.1
    have hw := hv.1
    unfold handle_timer_complete
    split
    · split
      · exact ⟨by simp; nlinarith, by simp [hrun], by simp; omega, by simpa using hv⟩
      · exact ⟨by simp; nlinarith, by simp [hrun], by simp; omega, by simpa using hv⟩
    · exact ⟨by simp; nlinarith, by simp [hrun], by simpa using hcc, by simpa using hv⟩
  | select t ht h ih =>
    obtain ⟨h0, hstop, hcc, hv⟩ := ih
    exact ⟨by simpa [on_technique_changed] using h0,
      by simp_all [on_technique_changed],
      by simpa [on_technique_changed] using hcc,
      by simpa [on_technique_changed] using ht⟩
  | settings w b hw hb h ih =>
    obtain ⟨h0, hstop, hcc, hv⟩ := ih
    have hl := hv.2.2.1
    have hc := hv.2.2.2
    exact ⟨by simpa [apply_settings] using h0,
      by simp_all [apply_settings],
      by simpa [apply_settings] using hcc,
      ⟨by simpa [apply_settings] using hw, by simpa [apply_settings] using hb,
        by simpa [apply_settings] using hl, by simpa [apply_settings] using hc⟩⟩

/-! ### Concrete instances used by witnesses and counterexamples -/

/-- The Classic Pomodoro technique with the dataclass defaults. -/
def classic : TimerTechnique :=
  { name := "Classic Pomodoro", work_time := 25, break_time := 5 }

/-- A running, unpaused work-phase state: Classic Pomodoro, 100 s left. -/
def sampleRunning : AppState :=
  { timer_running := true
    timer_paused := false
    remaining_time := 100
    current_phase := "work"
    completed_cycles := 0
    current_technique := classic }

/-- A running, paused work-phase state. -/
def samplePaused : AppState :=
  { sampleRunning with timer_paused := true }

/-- A running break-phase state. -/
def sampleBreak : AppState :=
  { sampleRunning with
    current_phase := "break", remaining_time := 300, completed_cycles := 1 }

/-- A persisted record with every optional JSON field missing. -/
def rawBare : RawTechnique :=
  { name := "Custom"
    work_time := 30
    break_time := 6
    long_break_time := none
    cycles_before_long_break := none
    description := none }

/-! ### Claims -/

/-- C1: when a phase completes while running, `handle_timer_complete` applies
exactly the spec's transition table: finishing "work" increments
`completed_cycles` and the next phase is "long_break" exactly when the new
count is divisible by `cycles_before_long_break`, else "break"; finishing
"break" or "long_break" returns to "work"; in every case `remaining_time`
becomes the new phase's configured minutes times 60.  Concretely, with
`cycles_before_long_break = 4`, work completions 1, 2, 3 yield "break" and the
4th and 8th yield "long_break" (completion k is iterate `2k - 1` because each
break completion is interleaved). -/
theorem C1_phase_transition :
    (∀ s : AppState, s.current_phase = "work" →
      (handle_timer_complete s).completed_cycles = s.completed_cycles + 1 ∧
      ((s.completed_cycles + 1) % s.current_technique.cycles_before_long_break = 0 →
        (handle_timer_complete s).current_phase = "long_break" ∧
        (handle_timer_complete s).remaining_time =
          s.current_technique.long_break_time * 60) ∧
      ((s.completed_cycles + 1) % s.current_technique.cycles_before_long_break ≠ 0 →
        (handle_timer_complete s).current_phase = "break" ∧
        (handle_timer_complete s).remaining_time =
          s.current_technique.break_time * 60)) ∧
    (∀ s : AppState, s.current_phase = "break" ∨ s.current_phase = "long_break" →
      (handle_timer_complete s).current_phase = "work" ∧
      (handle_timer_complete s).remaining_time =
        s.current_technique.work_time * 60) ∧
    ((handle_timer_complete^[1] sampleRunning).current_phase = "break" ∧
      (handle_timer_complete^[3] sampleRunning).current_phase = "break" ∧
      (handle_timer_complete^[5] sampleRunning).current_phase = "break" ∧
      (handle_timer_complete^[7] sampleRunning).current_phase = "long_break" ∧
      (handle_timer_complete^[15] sampleRunning).current_phase = "long_break") := by
  refine ⟨?_, ?_, ?_⟩
  · intro s hw
    unfold handle_timer_complete
    rw [if_pos hw]
    by_cases hc :
        (s.completed_cycles + 1) % s.current_technique.cycles_before_long_break = 0
    · rw [if_pos hc]
      exact ⟨by simp, fun _ => ⟨by simp, by simp⟩, fun hn => absurd hc hn⟩
    · rw [if_neg hc]
      exact ⟨by simp, fun h => absurd h hc, fun _ => ⟨by simp, by simp⟩⟩
  · intro s h
    have hne : ¬ s.current_phase = "work" := by
      rcases h with h | h <;> rw [h] <;> decide
    unfold handle_timer_complete
    rw [if_neg hne]
    exact ⟨by simp, by simp⟩
  · decide

/-- Witness for C1 at concrete states: completing a work phase with
`completed_cycles = 0` gives count 1 and phase "break"; completing a break
phase returns to "work". -/
theorem C1_phase_transition_witness :
    (handle_timer_complete sampleRunning).completed_cycles =
        sampleRunning.completed_cycles + 1 ∧
    (handle_timer_complete sampleBreak).current_phase = "work" :=
  ⟨(C1_phase_transition.1 sampleRunning (by decide)).1,
    (C1_phase_transition.2.1 sampleBreak (Or.inl (by decide))).1⟩

/-- C2: while running and unpaused, `n` loop iterations decrement
`remaining_time` by exactly `n` (so 1 per tick); `remaining_time` is
non-negative in every reachable state; and one `run_timer` execution (with
enough iterations to reach 0) fires the phase-complete handler exactly
once. -/
theorem C2_tick_semantics :
    (∀ (n : Nat) (s : AppState), s.timer_running = true →
      s.timer_paused = false → (n : Int) ≤ s.remaining_time →
      (run_timer_loop n s).remaining_time = s.remaining_time - n) ∧
    (∀ s : AppState, Reachable s → 0 ≤ s.remaining_time) ∧
    (∀ s : AppState, s.timer_running = true → s.timer_paused = false →
      0 ≤ s.remaining_time → (run_timer s.remaining_time.toNat s).2 = 1) := by
  refine ⟨run_timer_loop_decrements, fun s h => (reachable_inv h).1, ?_⟩
  intro s hrun hp h0
  have hd := run_timer_loop_drain s.remaining_time.toNat s hrun hp h0
    (le_of_eq (Int.toNat_of_nonneg h0).symm)
  unfold run_timer
  rw [hd]
  simp [hrun]

/-- Witness for C2 at a concrete running state: 5 ticks take 100 s to 95 s,
the timer is never negative at the freshly created state, and a full run
fires the completion handler once. -/
theorem C2_tick_semantics_witness :
    (run_timer_loop 5 sampleRunning).remaining_time =
        sampleRunning.remaining_time - (5 : Nat) ∧
    0 ≤ (initState classic).remaining_time ∧
    (run_timer sampleRunning.remaining_time.toNat sampleRunning).2 = 1 :=
  ⟨C2_tick_semantics.1 5 sampleRunning rfl rfl (by decide),
    C2_tick_semantics.2.1 (initState classic)
      (Reachable.init classic (by decide)),
    C2_tick_semantics.2.2 sampleRunning rfl rfl (by decide)⟩

/-- C3 counterexample: the claim's no-op guard does not exist.  In a running,
unpaused state `start_timer` takes the "start new timer" branch and changes
the state (here `remaining_time` jumps from 100 back to 1500). -/
theorem C3_counterexample :
    sampleRunning.timer_running = true ∧ sampleRunning.timer_paused = false ∧
    start_timer sampleRunning ≠ sampleRunning := by decide

/-- C3 amended: from a paused state `start_timer` resumes (only the paused
flag is cleared, `remaining_time` unchanged); from a stopped (idle) reachable
state it starts the work phase with `remaining_time = work_time * 60` and
`completed_cycles = 0`; but from a running, unpaused state it is NOT a no-op:
it takes the same "start new timer" branch, resetting the phase to "work" and
`remaining_time` to `work_time * 60` (and spawns a second timer thread). -/
theorem C3_start_contract :
    (∀ s : AppState, s.timer_running = true → s.timer_paused = true →
      start_timer s = { s with timer_paused := false }) ∧
    (∀ s : AppState, Reachable s → s.timer_running = false →
      start_timer s = { s with
        timer_running := true
        timer_paused := false
        current_phase := "work"
        remaining_time := s.current_technique.work_time * 60 } ∧
      (start_timer s).completed_cycles = 0) ∧
    (∀ s : AppState, s.timer_running = true → s.timer_paused = false →
      start_timer s = { s with
        timer_running := true
        timer_paused := false
        current_phase := "work"
        remaining_time := s.current_technique.work_time * 60 }) := by
  refine ⟨?_, ?_, ?_⟩
  · intro s h1 h2
    unfold start_timer
    rw [if_pos (by simp [h1, h2])]
  · intro s hr h1
    have hcc := ((reachable_inv hr).2.1 h1).2
    have hs : start_timer s = { s with
        timer_running := true
        timer_paused := false
        current_phase := "work"
        remaining_time := s.current_technique.work_time * 60 } := by
      unfold start_timer
      rw [if_neg (by simp [h1])]
    exact ⟨hs, by rw [hs]; simpa using hcc⟩
  · intro s h1 h2
    unfold start_timer
    rw [if_neg (by simp [h2])]

/-- Witness for C3's amended contract at concrete states: resume from pause,
start from the freshly created idle state, and restart from a running
state. -/
theorem C3_start_contract_witness :
    start_timer samplePaused = { samplePaused with timer_paused := false } ∧
    start_timer (initState classic) = { (initState classic) with
      timer_running := true
      timer_paused := false
      current_phase := "work"
      remaining_time := (initState classic).current_technique.work_time * 60 } ∧
    start_timer sampleRunning = { sampleRunning with
      timer_running := true
      timer_paused := false
      current_phase := "work"
      remaining_time := sampleRunning.current_technique.work_time * 60 } :=
  ⟨C3_start_contract.1 samplePaused rfl rfl,
    (C3_start_contract.2.1 (initState classic)
      (Reachable.init classic (by decide)) rfl).1,
    C3_start_contract.2.2 sampleRunning rfl rfl⟩

/-- C4: from a running, unpaused state `pause_timer` only sets the paused
flag (freezing `remaining_time`); while paused, any number of delivered loop
iterations changes nothing; in a reachable non-running state `pause_timer` is
a no-op on the timer state; and `start_timer` directly after `pause_timer`
restores the original state (so it resumes without resetting
`remaining_time`). -/
theorem C4_pause_contract :
    (∀ s : AppState, s.timer_running = true → s.timer_paused = false →
      pause_timer s = { s with timer_paused := true }) ∧
    (∀ (n : Nat) (s : AppState), s.timer_paused = true →
      run_timer_loop n s = s) ∧
    (∀ s : AppState, Reachable s → s.timer_running = false →
      pause_timer s = s) ∧
    (∀ s : AppState, s.timer_running = true → s.timer_paused = false →
      start_timer (pause_timer s) = s) := by
  refine ⟨?_, run_timer_loop_stays_paused, ?_, ?_⟩
  · intro s h1 h2
    unfold pause_timer
    rw [if_pos (by simp [h1, h2])]
  · intro s hr h1
    have hp := ((reachable_inv hr).2.1 h1).1
    unfold pause_timer
    rw [if_neg (by simp [h1])]
    cases s
    simp_all
  · intro s h1 h2
    have hps : pause_timer s = { s with timer_paused := true } := by
      unfold pause_timer
      rw [if_pos (by simp [h1, h2])]
    rw [hps]
    unfold start_timer
    rw [if_pos (by simp [h1])]
    cases s
    simp_all

/-- Witness for C4 at concrete states: pausing the running state, ticking the
paused state 50 times, pausing the idle state, and pause-then-start on the
running state. -/
theorem C4_pause_contract_witness :
    pause_timer sampleRunning = { sampleRunning with timer_paused := true } ∧
    run_timer_loop 50 samplePaused = samplePaused ∧
    pause_timer (initState classic) = initState classic ∧
    start_timer (pause_timer sampleRunning) = sampleRunning :=
  ⟨C4_pause_contract.1 sampleRunning rfl rfl,
    C4_pause_contract.2.1 50 samplePaused rfl,
    C4_pause_contract.2.2.1 (initState classic)
      (Reachable.init classic (by decide)) rfl,
    C4_pause_contract.2.2.2 sampleRunning rfl rfl⟩

/-- C5 counterexample: the state is NOT created with
`remaining_time = work_time * 60`; `__init__` sets `remaining_time = 0` (the
work time appears only in the display). -/
theorem C5_counterexample :
    (initState classic).timer_running = false ∧
    (initState classic).remaining_time ≠ classic.work_time * 60 := by decide

/-- C5 amended: the state is created idle (not running, not paused, zero
completed cycles) with internal `remaining_time = 0` while the DISPLAYED time
is `work_time * 60`; `reset_timer`, callable from any state, stops the timer,
clears paused, sets the phase marker to "ready", zeroes `completed_cycles`,
and the displayed time is again `work_time * 60` (the internal
`remaining_time` field is left at its last value, which no longer counts
down). -/
theorem C5_init_reset :
    (∀ t : TimerTechnique,
      (initState t).timer_running = false ∧
      (initState t).timer_paused = false ∧
      (initState t).completed_cycles = 0 ∧
      (initState t).remaining_time = 0 ∧
      displayedSeconds (initState t) = t.work_time * 60) ∧
    (∀ s : AppState,
      (reset_timer s).timer_running = false ∧
      (reset_timer s).timer_paused = false ∧
      (reset_timer s).current_phase = "ready" ∧
      (reset_timer s).completed_cycles = 0 ∧
      (reset_timer s).remaining_time = s.remaining_time ∧
      displayedSeconds (reset_timer s) =
        s.current_technique.work_time * 60) := by
  constructor
  · intro t
    simp [initState, displayedSeconds]
  · intro s
    simp [reset_timer, displayedSeconds]

/-- C6: the non-empty invariant is right and the code breaks it on one input.
Deleting from a list with one undeleted frame is indeed rejected with the
error dialog and the list unchanged, but `load_techniques` on a file that
parses to the empty JSON array returns the empty list (and `__init__` then
crashes at `self.techniques[0]`). -/
theorem C6_nonempty_violation :
    (load_techniques (ConfigFile.parsed [])).1 = [] ∧
    delete_technique_frame 0 [{ technique := classic, deleted := false }] =
      ([{ technique := classic, deleted := false }], true) := by decide

/-- C7: with no persisted file, load returns exactly the three built-in
defaults — Classic Pomodoro 25/5, Long Focus 50/10, Short Burst 15/3, each
with long break 15, cadence 4 and a non-empty description — and for every
parsed record the missing optional fields default to 15, 4 and "". -/
theorem C7_load_defaults :
    ((load_techniques ConfigFile.absent).1.length = 3 ∧
      (load_techniques ConfigFile.absent).1.map
          (fun t => (t.name, t.work_time, t.break_time)) =
        [("Classic Pomodoro", 25, 5), ("Long Focus", 50, 10),
          ("Short Burst", 15, 3)] ∧
      (load_techniques ConfigFile.absent).1.map
          (fun t => (t.long_break_time, t.cycles_before_long_break,
            t.description.isEmpty)) =
        [(15, 4, false), (15, 4, false), (15, 4, false)] ∧
      (load_techniques ConfigFile.absent).2 = false) ∧
    (∀ r : RawTechnique,
      (r.long_break_time = none → (parseTechnique r).long_break_time = 15) ∧
      (r.cycles_before_long_break = none →
        (parseTechnique r).cycles_before_long_break = 4) ∧
      (r.description = none → (parseTechnique r).description = "") ∧
      (parseTechnique r).name = r.name ∧
      (parseTechnique r).work_time = r.work_time ∧
      (parseTechnique r).break_time = r.break_time) ∧
    (∀ rs : List RawTechnique,
      (load_techniques (ConfigFile.parsed rs)).1 = rs.map parseTechnique) := by
  refine ⟨by decide, ?_, fun rs => rfl⟩
  intro r
  exact ⟨fun h => by simp [parseTechnique, h], fun h => by simp [parseTechnique, h],
    fun h => by simp [parseTechnique, h], rfl, rfl, rfl⟩

/-- Witness for C7 at a concrete record with all optional fields missing: the
defaults 15, 4 and "" are filled in. -/
theorem C7_load_defaults_witness :
    (parseTechnique rawBare).long_break_time = 15 ∧
    (parseTechnique rawBare).cycles_before_long_break = 4 ∧
    (parseTechnique rawBare).description = "" :=
  ⟨(C7_load_defaults.2.1 rawBare).1 rfl,
    (C7_load_defaults.2.1 rawBare).2.1 rfl,
    (C7_load_defaults.2.1 rawBare).2.2.1 rfl⟩

/-- C8 counterexample: on a present-but-unparseable file the code's
`load_techniques` does NOT propagate an error to its caller — the `except`
clause shows the error dialog and the function returns the built-in default
list itself, unlike the spec's `load_spec`, which returns a `LoadError`. -/
theorem C8_counterexample :
    load_techniques ConfigFile.unparseable = (default_techniques, true) ∧
    load_spec ConfigFile.unparseable = Except.error "LoadError" :=
  ⟨rfl, rfl⟩

/-- C8 amended: on a present-but-unreadable/unparseable file, load reports
the failure synchronously via an error dialog (the error is not silently
dropped: the dialog is shown exactly on the failing input) and then itself
falls back to the built-in default list; nothing is raised to the caller, so
the caller never gets to decide the fallback. -/
theorem C8_load_error_reporting :
    (∀ f : ConfigFile,
      (load_techniques f).2 = true ↔ f = ConfigFile.unparseable) ∧
    load_techniques ConfigFile.unparseable = (default_techniques, true) := by
  constructor
  · intro f
    cases f <;> simp [load_techniques]
  · rfl

/-- Witness for C8's amended claim at the failing input: the error dialog is
shown there. -/
theorem C8_load_error_reporting_witness :
    (load_techniques ConfigFile.unparseable).2 = true :=
  (C8_load_error_reporting.1 ConfigFile.unparseable).mpr rfl

/-- C9 counterexample: `save_techniques` opens the file with mode "w"
(truncating it) and then dumps; a failure during the dump leaves a truncated
file that is neither the complete serialized list nor the prior contents, so
the save is not atomic. -/
theorem C9_counterexample :
    (save_techniques SaveFailure.atDump
        (FileContent.full (serialize default_techniques)) [classic]).1 =
      FileContent.truncated ∧
    FileContent.truncated ≠ FileContent.full (serialize [classic]) ∧
    FileContent.truncated ≠
      FileContent.full (serialize default_techniques) := by
  refine ⟨rfl, by simp, by simp⟩

/-- C9 amended: save creates the config directory if missing and overwrites
`techniques.json` in place (truncate on open, then write — no temporary file
and no atomic rename).  When nothing fails the complete serialized list is
persisted; a failure before the open leaves the prior contents intact with an
error dialog; a failure during the dump leaves a truncated file with an error
dialog. -/
theorem C9_save_behavior :
    (∀ (prior : FileContent) (ts : List TimerTechnique),
      save_techniques SaveFailure.none prior ts =
        (FileContent.full (serialize ts), false)) ∧
    (∀ (prior : FileContent) (ts : List TimerTechnique),
      save_techniques SaveFailure.atOpen prior ts = (prior, true)) ∧
    (∀ (prior : FileContent) (ts : List TimerTechnique),
      save_techniques SaveFailure.atDump prior ts =
        (FileContent.truncated, true)) :=
  ⟨fun _ _ => rfl, fun _ _ => rfl, fun _ _ => rfl⟩

/-- C10: loading the serialized output of save reproduces the technique list
exactly, field for field, in order — load after save is the identity. -/
theorem C10_round_trip :
    ∀ ts : List TimerTechnique,
      (load_techniques (ConfigFile.parsed (serialize ts))).1 = ts := by
  intro ts
  induction ts with
  | nil => rfl
  | cons t rest ih =>
    simpa [load_techniques, serialize, parseTechnique] using
      (by simpa [load_techniques, serialize] using ih :
        (rest.map _).map parseTechnique = rest)

end Pomodoro
